import Mathlib

/-!
Verification of the TPL (Task Parallel Library) core: a shallow embedding of
`include/TPL/Future.h`, `include/TPL/Task.h`, `include/TPL/Task.inl` and the
bundled `ParallelTaskScheduler`, together with theorems settling the spec's
claims about single-assignment futures, listener delivery, dependency-driven
auto-start of composite tasks, unwrap forwarding, and pool shutdown draining.

Stateful C++ is embedded by explicit state passing; the concurrent protocols
(composite auto-start, unwrap forwarding, pool drain) are embedded as step
relations over explicit states, with one step constructor per atomic action of
the source, and the spec's properties are proved as invariants of all
reachable states.
-/

namespace TPL

/-- Contract violations: the `assert(...)` calls in the source that fire in
debug builds (`Future::SetValue`'s double-set check, `TaskImpl::MarkAsStarted`'s
double-start check, the null-scheduler checks in `MakeTask`/`Unwrap`). -/
inductive Violation : Type where
  | doubleSet
  | doubleStart
  | nullScheduler
deriving DecidableEq, Repr

/-- Result type of `Future<T>::WaitFor` (`Future.h` lines 16-19). -/
inductive WaitStatus : Type where
  | kTimeout
  | kReady
deriving DecidableEq, Repr

/-- State of a `tpl::Future<T>` (`Future.h` lines 135-139): the
`std::optional<ValueType> value_` cell and the `std::queue<OnValueAvailable>
onValueAvailable_` listener queue. Listener callbacks are modelled by
identifiers (`Nat`); an invocation of listener `cb` with value `v` is the pair
`(cb, v)`. The mutex and condition variable serialize the operations below,
so each operation is one atomic state transformation. -/
structure FutureT (α : Type) : Type where
  value : Option α
  listeners : List Nat
deriving Repr

/-- Future<T>::IsReadyInternal (`Future.h` line 109): `value_.has_value()`. -/
def FutureT.isReady {α : Type} (f : FutureT α) : Bool :=
  f.value.isSome

/-- Future<T>::CallAllValueListener (`Future.h` lines 117-133): pop the front
listener under the lock, invoke it with the stored value outside the lock,
repeat until the queue is empty. Returns the list of invocations performed, in
order. -/
def FutureT.callAllValueListener {α : Type} : List Nat → α → List (Nat × α)
  | [], _ => []
  | cb :: rest, v => (cb, v) :: FutureT.callAllValueListener rest v

/-- Future<T>::SetValue (`Future.h` lines 67-76): under the lock,
`assert(!value_.has_value())` then store `v`; then notify waiters and drain the
listener queue via `CallAllValueListener`. Returns the post state together
with the listener invocations performed, or the assertion violation. -/
def FutureT.SetValue {α : Type} (f : FutureT α) (v : α) :
    Except Violation (FutureT α × List (Nat × α)) :=
  match f.value with
  | some _ => .error .doubleSet
  | none => .ok (⟨some v, []⟩, FutureT.callAllValueListener f.listeners v)

/-- Future<T>::InvokeOnValueAvailable (`Future.h` lines 91-106): under the
lock, if the future is ready take the callback, else push it on the queue;
outside the lock invoke the taken callback with the stored value. Returns the
post state and the immediate invocation, if any (performed synchronously on
the registering caller's thread). -/
def FutureT.invokeOnValueAvailable {α : Type} (f : FutureT α) (cb : Nat) :
    FutureT α × Option (Nat × α) :=
  match f.value with
  | some v => (f, some (cb, v))
  | none => (⟨f.value, f.listeners ++ [cb]⟩, none)

/-- Future<T>::WaitFor (`Future.h` lines 51-59): a const method; the
condition-variable wait returns the value of the predicate
`value_.has_value()` at the moment the timer expires (or `true` earlier if the
value arrives first), and the method maps that to `kReady`/`kTimeout`. The
argument is the future's state at the moment the wait ends; the state is
returned unchanged. -/
def FutureT.waitFor {α : Type} (f : FutureT α) : WaitStatus × FutureT α :=
  (if f.value.isSome then .kReady else .kTimeout, f)

/-- Listener drain invokes exactly the queued listeners, each paired with the
final value, in queue (FIFO) order. -/
theorem FutureT.callAllValueListener_eq_map {α : Type} (cbs : List Nat) (v : α) :
    FutureT.callAllValueListener cbs v = cbs.map fun cb => (cb, v) := by
  induction cbs with
  | nil => rfl
  | cons cb rest ih => simp [FutureT.callAllValueListener, ih]

/-- C3: a future transitions Empty to Ready at most once: if `SetValue v1`
succeeds, the resulting future stores `v1`, and a subsequent `SetValue v2` is
a contract violation (the debug assertion `assert(!value_.has_value())` at
`Future.h` line 71), so the stored value is never overwritten. -/
theorem future_single_assignment {α : Type} (f f' : FutureT α) (v1 v2 : α)
    (calls : List (Nat × α)) (h : f.SetValue v1 = .ok (f', calls)) :
    f'.value = some v1 ∧ f'.SetValue v2 = .error .doubleSet := by
  match hv : f.value with
  | some w => simp [FutureT.SetValue, hv] at h
  | none =>
    simp [FutureT.SetValue, hv] at h
    obtain ⟨hf, -⟩ := h
    subst hf
    exact ⟨rfl, rfl⟩

/-- Witness for C3 at a concrete input: setting an empty future to 1 succeeds
and stores 1; setting it again to 2 is the double-set violation. -/
theorem future_single_assignment_witness :
    (⟨some 1, []⟩ : FutureT Nat).value = some 1 ∧
      (⟨some 1, []⟩ : FutureT Nat).SetValue 2 = .error .doubleSet :=
  future_single_assignment ⟨none, []⟩ ⟨some 1, []⟩ 1 2 [] rfl

/-- C4: listener delivery is total, exactly-once, and ordered.
Part 1: `SetValue` on an empty future succeeds and invokes exactly the queued
listeners, each exactly once with the final value, in registration (FIFO)
order, leaving the queue empty.
Part 2: registering a listener on a not-yet-ready future enqueues it at the
back of the queue (so listeners registered before the set are queued, and
later fire, in registration order) with no immediate invocation.
Part 3: registering a listener on a ready future invokes it immediately and
synchronously on the registering caller's thread with the final value, and
leaves the future unchanged. -/
theorem future_listener_totality {α : Type} (f : FutureT α) (v : α)
    (h : f.value = none) :
    f.SetValue v = .ok (⟨some v, []⟩, f.listeners.map fun cb => (cb, v)) ∧
      (∀ cb : Nat,
        f.invokeOnValueAvailable cb = (⟨f.value, f.listeners ++ [cb]⟩, none)) ∧
      (∀ (g : FutureT α) (w : α) (cb : Nat), g.value = some w →
        g.invokeOnValueAvailable cb = (g, some (cb, w))) := by
  refine ⟨?_, ?_, ?_⟩
  · simp [FutureT.SetValue, h, FutureT.callAllValueListener_eq_map]
  · intro cb
    simp [FutureT.invokeOnValueAvailable, h]
  · intro g w cb hg
    simp [FutureT.invokeOnValueAvailable, hg]

/-- Witness for C4 at a concrete input: an empty future with queued listeners
3 and 7 drains them in order with the final value 5; registration on the empty
future appends listener 9; registration on a ready future fires immediately. -/
theorem future_listener_totality_witness :
    (⟨none, [3, 7]⟩ : FutureT Nat).SetValue 5 =
        .ok (⟨some 5, []⟩, [3, 7].map fun cb => (cb, 5)) ∧
      (∀ cb : Nat, (⟨none, [3, 7]⟩ : FutureT Nat).invokeOnValueAvailable cb =
        (⟨none, [3, 7] ++ [cb]⟩, none)) ∧
      (∀ (g : FutureT Nat) (w : Nat) (cb : Nat), g.value = some w →
        g.invokeOnValueAvailable cb = (g, some (cb, w))) :=
  future_listener_totality ⟨none, [3, 7]⟩ 5 rfl

/-- C8: WaitFor returns Timeout iff the future is Empty at the moment the
timer expires; WaitFor is const, so after a Timeout the future is unchanged
(still Empty); and a subsequent SetValue still succeeds, after which later
waiters observe Ready. -/
theorem waitFor_timeout_soundness {α : Type} (f : FutureT α) (v : α) :
    (f.waitFor.1 = .kTimeout ↔ f.value = none) ∧
      f.waitFor.2 = f ∧
      (f.waitFor.1 = .kTimeout →
        f.SetValue v = .ok (⟨some v, []⟩, f.listeners.map fun cb => (cb, v)) ∧
          (⟨some v, []⟩ : FutureT α).waitFor.1 = .kReady) := by
  refine ⟨?_, rfl, ?_⟩
  · match hv : f.value with
    | some w => simp [FutureT.waitFor, hv]
    | none => simp [FutureT.waitFor, hv]
  · intro ht
    have hnone : f.value = none := by
      match hv : f.value with
      | some w => simp [FutureT.waitFor, hv] at ht
      | none => rfl
    constructor
    · simp [FutureT.SetValue, hnone, FutureT.callAllValueListener_eq_map]
    · rfl

/-- Witness for C8 at a concrete input: the empty future times out, is
unchanged, and a subsequent set to 4 succeeds and is seen by later waiters. -/
theorem waitFor_timeout_soundness_witness :
    ((⟨none, []⟩ : FutureT Nat).waitFor.1 = .kTimeout ↔
        (⟨none, []⟩ : FutureT Nat).value = none) ∧
      (⟨none, []⟩ : FutureT Nat).waitFor.2 = (⟨none, []⟩ : FutureT Nat) ∧
      ((⟨none, []⟩ : FutureT Nat).waitFor.1 = .kTimeout →
        (⟨none, []⟩ : FutureT Nat).SetValue 4 =
            .ok (⟨some 4, []⟩, [].map fun cb => (cb, 4)) ∧
          (⟨some 4, []⟩ : FutureT Nat).waitFor.1 = .kReady) :=
  waitFor_timeout_soundness ⟨none, []⟩ 4

/-- State of a `tpl::internal::TaskImpl<T>` (`Task.inl` lines 83-90 of the
class body): the member future `future_`, whether the producer callable
`functor_` is non-null, the scheduler pointer `scheduler_` (modelled as an
identifier, always set from a C++ reference so never null), and the debug
started-flag `isStarted_`. The refcount and the name string play no role in
the claims. -/
structure TaskModel (α : Type) : Type where
  future : FutureT α
  hasFunctor : Bool
  scheduler : Nat
  isStarted : Bool
deriving Repr

/-- TaskImpl<T>::TaskImpl(Functor&&, ITaskScheduler&) — the leaf constructor
(`Task.inl` lines 88-95): stores the callable (possibly a null
`std::function`, as passed by the value-lift branch and by `Unwrap`) and the
scheduler; the future starts Empty and the started-flag false. -/
def mkLeafTask (α : Type) (hasFunctor : Bool) (sched : Nat) : TaskModel α :=
  { future := ⟨none, []⟩, hasFunctor := hasFunctor, scheduler := sched,
    isStarted := false }

/-- TaskImpl<T>::MarkAsStarted (debug builds): `assert(!isStarted_);
isStarted_ = true;`. The assertion failure is the double-start contract
violation. -/
def markAsStarted {α : Type} (t : TaskModel α) : Except Violation (TaskModel α) :=
  if t.isStarted then .error .doubleStart
  else .ok { t with isStarted := true }

/-- TaskImpl<T>::Start (`Task.inl` lines 172-187): the debug started-flag
check, then `scheduler_->Schedule(closure)` submitting the node's producer
closure; the returned Bool records that a submission to the bound scheduler
happened. -/
def startTask {α : Type} (t : TaskModel α) :
    Except Violation (TaskModel α × Bool) :=
  match markAsStarted t with
  | .error e => .error e
  | .ok t' => .ok (t', true)

/-- Task<T>::Task value-lift branch (the `Functor` is a value; the branch
taken by `MakeTaskFromValue`): build the impl with a null
`std::function<ValueType()>` producer via `MakeTaskImpl`, call
`MarkAsStarted()`, then `SetValue` the freshly built (Empty) future with the
value. -/
def valueLiftTask {α : Type} (v : α) (sched : Nat) :
    Except Violation (TaskModel α) :=
  match markAsStarted (mkLeafTask α false sched) with
  | .error e => .error e
  | .ok t =>
    match t.future.SetValue v with
    | .error e => .error e
    | .ok (f, _) => .ok { t with future := f }

/-- MakeTaskFromValue(value, scheduler): constructs
`Task<decay_t<ValueType>> task(value, *scheduler)`, which takes the
value-lift constructor branch above. -/
def MakeTaskFromValue {α : Type} (v : α) (sched : Nat) :
    Except Violation (TaskModel α) :=
  valueLiftTask v sched

/-- Composite-node shell as built by `MakeTask` → the composite `TaskImpl`
constructor (`Task.inl` lines 97-119): the future starts Empty, `functor_` is
set to the (non-null) thunk wrapping the user callable, the scheduler comes
from the constructor's reference argument, and the node is not started. The
dependency-wiring side of that constructor is modelled separately by the
`CState` step relation below. -/
def mkCompositeShell (α : Type) (sched : Nat) : TaskModel α :=
  { future := ⟨none, []⟩, hasFunctor := true, scheduler := sched,
    isStarted := false }

/-- Task<T>::Then(Functor&&, ITaskScheduler*) (`Task.inl` lines 234-242): if
the scheduler argument is null it is replaced by `GetScheduler()`, then
`MakeTask(functor, scheduler, *this)` builds a one-parent composite bound to
that (now non-null) scheduler. -/
def thenTask {α : Type} (β : Type) (t : TaskModel α) (scheduler : Option Nat) :
    TaskModel β :=
  mkCompositeShell β
    (match scheduler with
     | none => t.scheduler
     | some s => s)

/-- Task<T>::Unwrap(ITaskScheduler*) (`part_004` lines 266-287), construction
part: a null scheduler argument falls back to `gDefaultTaskScheduler` with
`assert(scheduler != nullptr)`; then the proxy task is built with a null
callback (`CallbackType(nullptr)`) on the chosen scheduler and
`MarkAsStarted()` is called on it. The value-forwarding subscriptions are
modelled separately by the `UState` step relation below. -/
def unwrapProxy {α : Type} (β : Type) (_t : TaskModel α) (scheduler : Option Nat)
    (gDefaultTaskScheduler : Option Nat) : Except Violation (TaskModel β) :=
  match (match scheduler with
         | none => gDefaultTaskScheduler
         | some s => some s) with
  | none => .error .nullScheduler
  | some s => markAsStarted (mkLeafTask β false s)

/-- Task<T>::Unwrap() (`part_004` lines 289-293): `return
Unwrap(GetScheduler());` — the no-argument overload passes the task's own
scheduler explicitly. -/
def unwrapNoArg {α : Type} (β : Type) (t : TaskModel α)
    (gDefaultTaskScheduler : Option Nat) : Except Violation (TaskModel β) :=
  unwrapProxy β t (some t.scheduler) gDefaultTaskScheduler

/-- C7: Then with a null scheduler argument binds the continuation composite
to the parent task's own scheduler, and Then with a non-null scheduler s
binds it to s. -/
theorem then_scheduler_inheritance {α β : Type} (t : TaskModel α) (s : Nat) :
    (thenTask β t none).scheduler = t.scheduler ∧
      (thenTask β t (some s)).scheduler = s :=
  ⟨rfl, rfl⟩

/-- C9: Unwrap with the scheduler omitted (the no-argument overload) binds
the proxy to the task's own scheduler, and Unwrap with an explicitly chosen
scheduler binds the proxy to that scheduler; in both cases the proxy has a
null producer and is marked as already started at construction. -/
theorem unwrap_scheduler_binding {α β : Type} (t : TaskModel α) (s : Nat)
    (d : Option Nat) :
    unwrapNoArg β t d =
        .ok { future := ⟨none, []⟩, hasFunctor := false,
              scheduler := t.scheduler, isStarted := true } ∧
      unwrapProxy β t (some s) d =
        .ok { future := ⟨none, []⟩, hasFunctor := false, scheduler := s,
              isStarted := true } :=
  ⟨rfl, rfl⟩

/-- C10: the task returned by MakeTaskFromValue is marked as already started
at construction, so a call to Start() on it is the double-start contract
violation caught by the debug started-flag assertion; its future already
holds the value, so GetValue returns it without blocking (the future is
Ready, hence Wait returns immediately). -/
theorem makeTaskFromValue_started {α : Type} (v : α) (sched : Nat) :
    MakeTaskFromValue v sched =
        .ok { future := ⟨some v, []⟩, hasFunctor := false, scheduler := sched,
              isStarted := true } ∧
      startTask { future := (⟨some v, []⟩ : FutureT α), hasFunctor := false,
                  scheduler := sched, isStarted := true } =
        .error .doubleStart ∧
      (⟨some v, []⟩ : FutureT α).isReady = true ∧
      (⟨some v, []⟩ : FutureT α).value = some v :=
  ⟨rfl, rfl, rfl, rfl⟩

/-- State of a composite node's dependency wiring, for a composite with `n`
parents (`Task.inl` lines 97-165). Fields:
`ready` — the set of parents whose futures hold a value (each parent's
`SetValue`);
`ran` — the set of parents whose subscription closure (registered via
`parent->GetFuture().InvokeOnValueAvailable(...)`) has fired — each closure is
one-shot, destroyed once called;
`slot` — the set of dependency-tuple slots written (`tupleEle = parent;`);
`pending` — the `std::atomic_int pendingDependencyCount`, initialised to `n`;
`startCalls` — ghost counter of how many times `self->Start()` has been
invoked by the closures. -/
structure CState (n : Nat) : Type where
  ready : Finset (Fin n)
  ran : Finset (Fin n)
  slot : Finset (Fin n)
  pending : Int
  startCalls : Nat

/-- State right after the composite constructor returns: no parent is ready,
no closure has fired, the tuple slots are empty and
`pendingDependencyCount = n`. -/
def CState.init (n : Nat) : CState n :=
  { ready := ∅, ran := ∅, slot := ∅, pending := (n : Int), startCalls := 0 }

/-- Effect of parent i's future becoming Ready (the parent producer's
`SetValue`). -/
def CState.setParent {n : Nat} (s : CState n) (i : Fin n) : CState n :=
  { s with ready := insert i s.ready }

/-- Body of parent i's subscription closure (`Task.inl` lines 127-144 and the
identical non-void branch at lines 147-161): store the strong parent
reference into tuple slot i (`tupleEle = parent;`), atomically decrement
`pendingDependencyCount`, and if the decremented value is zero register the
self-listener keeping the dependency context alive and call `self->Start()`
(counted by the ghost field `startCalls`). -/
def CState.runClosure {n : Nat} (s : CState n) (i : Fin n) : CState n :=
  { s with
    slot := insert i s.slot
    ran := insert i s.ran
    pending := s.pending - 1
    startCalls := if s.pending - 1 = 0 then s.startCalls + 1 else s.startCalls }

/-- Interleavings of the composite wiring protocol: from the constructed
state, parents become ready in any order, and a parent's closure fires at any
later point (the future invokes a registered listener only with the value
available — either during `SetValue`'s drain or immediately at registration
on an already-Ready future — and invokes it exactly once). -/
inductive CReach (n : Nat) : CState n → Prop where
  | init : CReach n (CState.init n)
  | parentSet (s : CState n) (i : Fin n) : CReach n s → i ∉ s.ready →
      CReach n (s.setParent i)
  | closureFired (s : CState n) (i : Fin n) : CReach n s → i ∈ s.ready →
      i ∉ s.ran → CReach n (s.runClosure i)

/-- Inductive invariant of the wiring protocol: the pending count is `n`
minus the number of closures that have fired; a closure fires only for a
ready parent; the tuple slots written are exactly the closures that fired;
and `Start` has been called exactly once if all `n` closures have fired,
never otherwise. -/
theorem CReach.pending_invariant {n : Nat} (hn : 0 < n) {s : CState n}
    (h : CReach n s) :
    s.pending = (n : Int) - s.ran.card ∧ s.ran ⊆ s.ready ∧ s.slot = s.ran ∧
      s.startCalls = (if s.ran.card = n then 1 else 0) := by
  induction h with
  | init =>
    refine ⟨by simp [CState.init], by simp [CState.init], by simp [CState.init], ?_⟩
    simp only [CState.init, Finset.card_empty]
    rw [if_neg (by omega)]
  | parentSet s i hr hni ih =>
    obtain ⟨h1, h2, h3, h4⟩ := ih
    exact ⟨h1, h2.trans (Finset.subset_insert i s.ready), h3, h4⟩
  | closureFired s i hr hmem hnotran ih =>
    obtain ⟨h1, h2, h3, h4⟩ := ih
    have hcard : (insert i s.ran).card = s.ran.card + 1 :=
      Finset.card_insert_of_not_mem hnotran
    have hle : s.ran.card < n := by
      have := Finset.card_le_card (Finset.subset_univ (insert i s.ran))
      simp only [Finset.card_univ, Fintype.card_fin] at this
      omega
    refine ⟨?_, ?_, ?_, ?_⟩
    · simp only [CState.runClosure, hcard, h1]
      push_cast
      ring
    · exact Finset.insert_subset hmem h2
    · simp only [CState.runClosure, h3]
    · simp only [CState.runClosure, hcard, h1, h4]
      by_cases hfull : s.ran.card + 1 = n
      · rw [if_pos (by omega : (n : Int) - s.ran.card - 1 = 0),
          if_pos hfull, if_neg (by omega)]
      · rw [if_neg (by omega : ¬((n : Int) - s.ran.card - 1 = 0)),
          if_neg (by omega), if_neg (by omega)]

/-- C1: a composite's producer is scheduled only after every parent is Ready:
in any interleaving, once a closure has called Start() on the composite
(startCalls ≥ 1), all n parent futures hold values, every closure has fired,
and every parent has been stored into its dependency-tuple slot — so the
producer thunk, which runs only after that sole Start(), reads a fully
populated parent tuple of Ready futures. -/
theorem composite_starts_after_all_parents_ready {n : Nat} (hn : 0 < n)
    {s : CState n} (h : CReach n s) (hs : 1 ≤ s.startCalls) :
    s.ready = Finset.univ ∧ s.ran = Finset.univ ∧ s.slot = Finset.univ := by
  obtain ⟨-, h2, h3, h4⟩ := CReach.pending_invariant hn h
  have hfull : s.ran.card = n := by
    by_contra hne
    rw [h4, if_neg hne] at hs
    omega
  have hran : s.ran = Finset.univ := by
    apply Finset.eq_univ_of_card
    simpa [Fintype.card_fin] using hfull
  refine ⟨?_, hran, h3.trans hran⟩
  apply Finset.eq_univ_of_forall
  intro i
  exact h2 (hran ▸ Finset.mem_univ i)

/-- Witness for C1: with two parents, the interleaving parent 0 ready →
closure 0 fires → parent 1 ready → closure 1 fires reaches a state with
startCalls = 1, and there all slots are filled and all parents Ready. -/
theorem composite_starts_after_all_parents_ready_witness :
    (((((CState.init 2).setParent 0).runClosure 0).setParent 1).runClosure 1).ready
        = Finset.univ ∧
      (((((CState.init 2).setParent 0).runClosure 0).setParent 1).runClosure 1).ran
        = Finset.univ ∧
      (((((CState.init 2).setParent 0).runClosure 0).setParent 1).runClosure 1).slot
        = Finset.univ :=
  composite_starts_after_all_parents_ready (by decide)
    (CReach.closureFired _ 1
      (CReach.parentSet _ 1
        (CReach.closureFired _ 0
          (CReach.parentSet _ 0 CReach.init (by decide))
          (by decide) (by decide))
        (by decide))
      (by decide) (by decide))
    (by decide)

/-- C2: the scheduler submission in Start() happens at most once over every
interleaving of parent completions: in every reachable state at most one
closure has called Start() (exactly the one that brought the atomic pending
count to zero), and when all closures have fired Start() has been called
exactly once; moreover a second Start() call on any node is the double-start
contract violation detected by the debug started-flag. -/
theorem composite_start_at_most_once {n : Nat} (hn : 0 < n) {s : CState n}
    (h : CReach n s) :
    s.startCalls ≤ 1 ∧ (s.ran = Finset.univ → s.startCalls = 1) ∧
      (∀ (α : Type) (t t' : TaskModel α) (b : Bool),
        startTask t = .ok (t', b) → startTask t' = .error .doubleStart) := by
  obtain ⟨-, -, -, h4⟩ := CReach.pending_invariant hn h
  refine ⟨?_, ?_, ?_⟩
  · rw [h4]
    split <;> omega
  · intro hran
    rw [h4, if_pos (by simp [hran, Fintype.card_fin])]
  · intro α t t' b hok
    by_cases hst : t.isStarted
    · simp [startTask, markAsStarted, hst] at hok
    · simp [startTask, markAsStarted, hst] at hok
      obtain ⟨ht, -⟩ := hok
      subst ht
      simp [startTask, markAsStarted]

/-- Witness for C2: in the fully fired two-parent interleaving, Start() has
been called exactly once, and the double-start check of `startTask` fires on
a concrete already-started node. -/
theorem composite_start_at_most_once_witness :
    (((((CState.init 2).setParent 0).runClosure 0).setParent 1).runClosure 1).startCalls
        ≤ 1 ∧
      ((((((CState.init 2).setParent 0).runClosure 0).setParent 1).runClosure 1).ran
          = Finset.univ →
        (((((CState.init 2).setParent 0).runClosure 0).setParent 1).runClosure 1).startCalls
          = 1) ∧
      (∀ (α : Type) (t t' : TaskModel α) (b : Bool),
        startTask t = .ok (t', b) → startTask t' = .error .doubleStart) :=
  composite_start_at_most_once (by decide)
    (CReach.closureFired _ 1
      (CReach.parentSet _ 1
        (CReach.closureFired _ 0
          (CReach.parentSet _ 0 CReach.init (by decide))
          (by decide) (by decide))
        (by decide))
      (by decide) (by decide))

/-- State of the Unwrap forwarding chain (`part_004` lines 281-285) for an
outer task X whose value is an inner task Y of value type α. Fields:
`outerReady` — X's future holds the inner task handle;
`innerFuture` — Y's future;
`proxyFuture` — the proxy task's future;
`outerCbRun` — the closure subscribed on X's future has fired;
`innerCbSubscribed` — that closure has registered the second closure on Y's
future;
`innerCbRun` — the second closure has fired (it performs
`proxyTask.GetFuture().SetValue(value)`);
`proxySubmissions` — ghost count of submissions of the proxy to its
scheduler (no code path ever calls Start() on the proxy: its producer is the
null callback and it is marked started at construction). -/
structure UState (α : Type) : Type where
  outerReady : Bool
  innerFuture : Option α
  proxyFuture : Option α
  outerCbRun : Bool
  innerCbSubscribed : Bool
  innerCbRun : Bool
  proxySubmissions : Nat

/-- State right after `Unwrap` returns the proxy handle: nothing has fired
yet and the proxy future is Empty. -/
def UState.init (α : Type) : UState α :=
  { outerReady := false, innerFuture := none, proxyFuture := none,
    outerCbRun := false, innerCbSubscribed := false, innerCbRun := false,
    proxySubmissions := 0 }

/-- Effect of X's future becoming Ready with the inner task handle. -/
def UState.setOuter {α : Type} (u : UState α) : UState α :=
  { u with outerReady := true }

/-- Body of the closure subscribed on X's future (`part_004` line 281): it
receives the inner task and subscribes the forwarding closure on the inner
task's future. -/
def UState.runOuterCb {α : Type} (u : UState α) : UState α :=
  { u with outerCbRun := true, innerCbSubscribed := true }

/-- Effect of the inner task Y's future becoming Ready with value v. -/
def UState.setInner {α : Type} (u : UState α) (v : α) : UState α :=
  { u with innerFuture := some v }

/-- Body of the forwarding closure subscribed on Y's future (`part_004`
lines 282-284): `proxyTask.GetFuture().SetValue(value)` with the value Y's
future delivered. -/
def UState.runInnerCb {α : Type} (u : UState α) (v : α) : UState α :=
  { u with innerCbRun := true, proxyFuture := some v }

/-- Interleavings of the unwrap forwarding chain: each future becomes Ready
at most once, and each one-shot closure fires only after the future it is
subscribed on is Ready (with that future's value). -/
inductive UReach (α : Type) : UState α → Prop where
  | init : UReach α (UState.init α)
  | outerSet (u : UState α) : UReach α u → u.outerReady = false →
      UReach α u.setOuter
  | outerCb (u : UState α) : UReach α u → u.outerReady = true →
      u.outerCbRun = false → UReach α u.runOuterCb
  | innerSet (u : UState α) (v : α) : UReach α u → u.innerFuture = none →
      UReach α (u.setInner v)
  | innerCb (u : UState α) (v : α) : UReach α u → u.innerCbSubscribed = true →
      u.innerFuture = some v → u.innerCbRun = false →
      UReach α (u.runInnerCb v)

/-- Inductive invariant of the forwarding chain: any value held by the proxy
future came from the inner task's future; once the forwarding closure has
fired the two futures are equal (and Ready); and the proxy has never been
submitted to its scheduler. -/
theorem UReach.forwarding_invariant {α : Type} {u : UState α} (h : UReach α u) :
    (∀ v : α, u.proxyFuture = some v → u.innerFuture = some v) ∧
      (u.innerCbRun = true → u.proxyFuture = u.innerFuture ∧
        u.innerFuture.isSome = true) ∧
      u.proxySubmissions = 0 := by
  induction h with
  | init => exact ⟨fun v hv => by simp [UState.init] at hv, fun hr => by
      simp [UState.init] at hr, rfl⟩
  | outerSet u hr hg ih => exact ih
  | outerCb u hr hg1 hg2 ih => exact ih
  | innerSet u v hr hg ih =>
    obtain ⟨i1, i2, i3⟩ := ih
    refine ⟨?_, ?_, i3⟩
    · intro w hw
      have := i1 w hw
      rw [hg] at this
      exact absurd this (by simp)
    · intro hcb
      have := (i2 hcb).2
      rw [hg] at this
      exact absurd this (by simp)
  | innerCb u v hr hg1 hg2 hg3 ih =>
    obtain ⟨i1, i2, i3⟩ := ih
    refine ⟨?_, ?_, i3⟩
    · intro w hw
      simp only [UState.runInnerCb, Option.some.injEq] at hw ⊢
      rw [← hw]
      exact hg2
    · intro _
      simp [UState.runInnerCb, hg2]

/-- C5: unwrap identity and proxy passivity. In every interleaving of the
forwarding chain, whenever the proxy's future holds a value it is exactly
the value of the inner task's future; once the forwarding closure has fired,
the proxy's future equals the inner task's (Ready) future, so
X.Unwrap().GetFuture().GetValue() equals Y.GetFuture().GetValue(); the proxy
is never submitted to its scheduler; and the proxy node built by Unwrap has
a null producer with an Empty future at construction. -/
theorem unwrap_identity {α : Type} {u : UState α} (h : UReach α u) :
    (∀ v : α, u.proxyFuture = some v → u.innerFuture = some v) ∧
      (u.innerCbRun = true → u.proxyFuture = u.innerFuture) ∧
      u.proxySubmissions = 0 ∧
      (∀ (t : TaskModel Nat) (s : Nat) (d : Option Nat) (P : TaskModel α),
        unwrapProxy α t (some s) d = .ok P →
          P.hasFunctor = false ∧ P.future.value = none) := by
  obtain ⟨i1, i2, i3⟩ := UReach.forwarding_invariant h
  refine ⟨i1, fun hr => (i2 hr).1, i3, ?_⟩
  intro t s d P hok
  simp [unwrapProxy, markAsStarted, mkLeafTask] at hok
  rw [← hok]
  exact ⟨rfl, rfl⟩

/-- Witness for C5: the full chain at a concrete value — outer ready, outer
closure fires, inner future set to 5, forwarding closure fires — yields a
proxy future holding exactly the inner future's value 5, with zero proxy
submissions. -/
theorem unwrap_identity_witness :
    (∀ v : Nat,
        ((((UState.init Nat).setOuter.runOuterCb).setInner 5).runInnerCb 5).proxyFuture
            = some v →
          ((((UState.init Nat).setOuter.runOuterCb).setInner 5).runInnerCb 5).innerFuture
            = some v) ∧
      (((((UState.init Nat).setOuter.runOuterCb).setInner 5).runInnerCb 5).innerCbRun
          = true →
        ((((UState.init Nat).setOuter.runOuterCb).setInner 5).runInnerCb 5).proxyFuture
          = ((((UState.init Nat).setOuter.runOuterCb).setInner 5).runInnerCb 5).innerFuture) ∧
      ((((UState.init Nat).setOuter.runOuterCb).setInner 5).runInnerCb 5).proxySubmissions
          = 0 ∧
      (∀ (t : TaskModel Nat) (s : Nat) (d : Option Nat) (P : TaskModel Nat),
        unwrapProxy Nat t (some s) d = .ok P →
          P.hasFunctor = false ∧ P.future.value = none) :=
  unwrap_identity
    (UReach.innerCb _ 5
      (UReach.innerSet _ 5
        (UReach.outerCb _ (UReach.outerSet _ UReach.init rfl) rfl rfl)
        rfl)
      rfl rfl rfl)

/-- State of a `ParallelTaskScheduler` (`part_001` lines 36-112): the FIFO
`taskQueue_` (callables as identifiers), the `taskCount_` counter, the
`isRunning_` flag, plus ghost lists of the callables submitted and of the
callables that have run to completion, and ghost counts of worker threads
(`numWorkers` = size of `workerThreads_`, `exited` = workers whose
`WorkerThreadRoutine` loop has hit the break). The queue mutex serializes
these actions, so each is one atomic step. -/
structure PoolState : Type where
  queue : List Nat
  taskCount : Nat
  isRunning : Bool
  submitted : List Nat
  executed : List Nat
  numWorkers : Nat
  exited : Nat
deriving Repr

/-- State right after the `ParallelTaskScheduler(numThreads)` constructor:
empty queue, `isRunning_ = true`, all workers looping. -/
def PoolState.init (w : Nat) : PoolState :=
  { queue := [], taskCount := 0, isRunning := true, submitted := [],
    executed := [], numWorkers := w, exited := 0 }

/-- ParallelTaskScheduler::Schedule (`part_001` lines 70-78): under the lock,
`++taskCount_; taskQueue_.push(functor);` then notify. -/
def PoolState.schedule (s : PoolState) (f : Nat) : PoolState :=
  { s with
    queue := s.queue ++ [f]
    taskCount := s.taskCount + 1
    submitted := s.submitted ++ [f] }

/-- First half of the destructor (`part_001` lines 56-62): under the lock set
`isRunning_ = false`, then notify all workers. -/
def PoolState.shutdown (s : PoolState) : PoolState :=
  { s with isRunning := false }

/-- One worker-loop iteration that takes work (`part_001` lines 83-99): with
`taskCount_ > 0` the worker pops the queue front under the lock, decrements
`taskCount_`, releases the lock and runs the callable to completion. -/
def PoolState.workerRun (s : PoolState) (f : Nat) (rest : List Nat) : PoolState :=
  { s with
    queue := rest
    taskCount := s.taskCount - 1
    executed := s.executed ++ [f] }

/-- A worker hitting the loop's break (`part_001` lines 90-92): only when
`!isRunning_ && taskCount_ == 0`; the destructor's join then reaps it. -/
def PoolState.workerExit (s : PoolState) : PoolState :=
  { s with exited := s.exited + 1 }

/-- Interleavings of the pool's threads. The guard `isRunning = true` on
`schedule` restricts the traces to the claim's scope: callables submitted
before destruction begins. -/
inductive PoolReach (w : Nat) : PoolState → Prop where
  | init : PoolReach w (PoolState.init w)
  | schedule (s : PoolState) (f : Nat) : PoolReach w s → s.isRunning = true →
      PoolReach w (s.schedule f)
  | shutdown (s : PoolState) : PoolReach w s → PoolReach w s.shutdown
  | workerRun (s : PoolState) (f : Nat) (rest : List Nat) : PoolReach w s →
      s.queue = f :: rest → PoolReach w (s.workerRun f rest)
  | workerExit (s : PoolState) : PoolReach w s → s.isRunning = false →
      s.taskCount = 0 → s.exited < s.numWorkers → PoolReach w s.workerExit

/-- Inductive invariant of the pool: the counter tracks the queue length; the
submitted callables are exactly the executed ones followed by the still
queued ones, in FIFO order; once any worker has exited, shutdown has been
signalled and the queue is already empty (a worker only quits when both hold,
and nothing is submitted after shutdown); and the worker count is fixed. -/
theorem PoolReach.queue_invariant {w : Nat} {s : PoolState} (h : PoolReach w s) :
    s.taskCount = s.queue.length ∧ s.submitted = s.executed ++ s.queue ∧
      (0 < s.exited → s.isRunning = false ∧ s.queue = []) ∧
      s.numWorkers = w := by
  induction h with
  | init => exact ⟨rfl, rfl, fun hx => absurd hx (by simp [PoolState.init]), rfl⟩
  | schedule s f hr hrun ih =>
    obtain ⟨j1, j2, j3, j4⟩ := ih
    refine ⟨by simp [PoolState.schedule, j1], by simp [PoolState.schedule, j2], ?_, j4⟩
    intro hx
    simp only [PoolState.schedule] at hx
    exact absurd ((j3 hx).1 ▸ hrun) (by simp)
  | shutdown s hr ih =>
    obtain ⟨j1, j2, j3, j4⟩ := ih
    exact ⟨j1, j2, fun hx => ⟨rfl, (j3 hx).2⟩, j4⟩
  | workerRun s f rest hr hq ih =>
    obtain ⟨j1, j2, j3, j4⟩ := ih
    refine ⟨?_, ?_, ?_, j4⟩
    · simp [PoolState.workerRun, j1, hq]
    · simp [PoolState.workerRun, j2, hq]
    · intro hx
      simp only [PoolState.workerRun] at hx
      have := (j3 hx).2
      rw [hq] at this
      exact absurd this (by simp)
  | workerExit s hr hrun hcount hlt ih =>
    obtain ⟨j1, j2, j3, j4⟩ := ih
    refine ⟨j1, j2, fun hx => ⟨hrun, ?_⟩, j4⟩
    have : s.queue.length = 0 := by omega
    exact List.eq_nil_of_length_eq_zero this

/-- C6: pool shutdown drains. In every interleaving in which all callables
are submitted before destruction begins and the destructor has joined every
worker (all workers exited, worker count positive as the constructor
asserts), the queue is empty and the callables that ran to completion are
exactly the submitted ones, in submission order — a worker exits its loop
only when the shutdown flag is set and the task queue is empty. -/
theorem pool_shutdown_drain {w : Nat} {s : PoolState} (h : PoolReach w s)
    (hjoin : s.exited = s.numWorkers) (hw : 0 < s.numWorkers) :
    s.queue = [] ∧ s.executed = s.submitted := by
  obtain ⟨-, j2, j3, -⟩ := PoolReach.queue_invariant h
  have hq : s.queue = [] := (j3 (by omega)).2
  refine ⟨hq, ?_⟩
  rw [j2, hq, List.append_nil]

/-- Witness for C6: a one-worker pool runs callables 7 and 8 submitted before
shutdown, then shuts down, drains both, and the worker exits; at join time the
executed list equals the submitted list. -/
theorem pool_shutdown_drain_witness :
    (((((((PoolState.init 1).schedule 7).schedule 8).shutdown).workerRun 7
          [8]).workerRun 8 []).workerExit).queue = [] ∧
      (((((((PoolState.init 1).schedule 7).schedule 8).shutdown).workerRun 7
          [8]).workerRun 8 []).workerExit).executed =
        (((((((PoolState.init 1).schedule 7).schedule 8).shutdown).workerRun 7
          [8]).workerRun 8 []).workerExit).submitted :=
  pool_shutdown_drain
    (PoolReach.workerExit _
      (PoolReach.workerRun _ 8 []
        (PoolReach.workerRun _ 7 [8]
          (PoolReach.shutdown _
            (PoolReach.schedule _ 8
              (PoolReach.schedule _ 7 PoolReach.init rfl) rfl))
          rfl)
        rfl)
      rfl rfl (by decide))
    rfl (by decide)

end TPL
